import Mathlib

/-!
# Verification of `fast_segmentation/core/train.py`

A shallow embedding of the training driver script.  Numeric quantities
(losses, scores, learning rates) are embedded as rationals `Val := ℚ`;
tensors, model states and file contents are abstracted to identifiers.
Two views of the script are embedded:

* a pure trace semantics, where every framework primitive is total and its
  results are supplied by an oracle `Env`, and the observable actions of the
  script are recorded as a list of `Event`s; and
* an exceptional semantics (suffix `E`), where every framework primitive may
  raise, used to study error propagation.

Helper functions of the repository that are imported by `train.py` but whose
source is not part of the script (`get_next_file_name`, `get_next_dir_name`)
are modelled from the spec, as marked on their doc comments.
-/

/-- Numeric values of the script (losses, scores, learning rates) are
embedded as rationals. -/
abbrev Val := ℚ

/-! ## `get_optimizer` (train.py lines 68-94) -/

/-- A named model parameter; only its tensor dimension matters to
`get_optimizer`. -/
structure Param where
  name : String
  dim : Nat
  deriving DecidableEq

/-- One Adam parameter group: the parameters and an optional group-level
`weight_decay` override (Python dict key present or absent). -/
structure ParamGroup where
  params : List Param
  weight_decay : Option Val
  deriving DecidableEq

/-- The Adam optimizer as constructed by
`torch.optim.Adam(params_list, lr=lr_start, betas=optimizer_betas,
weight_decay=weight_decay)`. -/
structure Adam where
  param_groups : List ParamGroup
  lr : Val
  betas : Val × Val
  weight_decay : Val
  deriving DecidableEq

/-- The effective weight decay of a group: the group override when present,
otherwise the optimizer-level default. -/
def effectiveWd (opt : Adam) (g : ParamGroup) : Val :=
  g.weight_decay.getD opt.weight_decay

/-- The accumulation loop of `get_optimizer` (lines 82-86):
`if param.dim() == 1: non_wd_params.append(param)
 elif param.dim() == 2 or param.dim() == 4: wd_params.append(param)`.
The accumulator is the pair `(wd_params, non_wd_params)`. -/
def paramSplitStep (acc : List Param × List Param) (p : Param) :
    List Param × List Param :=
  if p.dim = 1 then (acc.1, acc.2 ++ [p])
  else if p.dim = 2 ∨ p.dim = 4 then (acc.1 ++ [p], acc.2)
  else acc

/-- Embedding of `get_optimizer(net, lr_start, optimizer_betas, weight_decay)`
(lines 68-94): splits `net.named_parameters()` into `wd_params` and
`non_wd_params` and builds Adam over
`[{'params': wd_params}, {'params': non_wd_params, 'weight_decay': 0}]`. -/
def get_optimizer (net : List Param) (lr_start : Val) (optimizer_betas : Val × Val)
    (weight_decay : Val) : Adam :=
  let s := net.foldl paramSplitStep ([], [])
  { param_groups := [⟨s.1, none⟩, ⟨s.2, some 0⟩]
    lr := lr_start
    betas := optimizer_betas
    weight_decay := weight_decay }

/-- The fold of `paramSplitStep` computes the two dimension filters, for any
starting accumulator. -/
theorem paramSplit_foldl (net : List Param) (a b : List Param) :
    net.foldl paramSplitStep (a, b) =
      (a ++ net.filter (fun p => p.dim ≠ 1 ∧ (p.dim = 2 ∨ p.dim = 4)),
       b ++ net.filter (fun p => p.dim = 1)) := by
  induction net generalizing a b with
  | nil => simp
  | cons p ps ih =>
    simp only [List.foldl_cons, List.filter_cons, paramSplitStep]
    by_cases h1 : p.dim = 1
    · simp only [h1, if_pos rfl]
      rw [ih]
      simp only [decide_eq_true_eq]
      have : ¬ ((1 : Nat) ≠ 1 ∧ ((1 : Nat) = 2 ∨ (1 : Nat) = 4)) := by simp
      simp [h1, List.append_assoc]
    · by_cases h2 : p.dim = 2 ∨ p.dim = 4
      · rw [if_neg h1, if_pos h2, ih]
        have hd : (decide (p.dim = 1)) = false := by simp [h1]
        simp [h1, h2, hd, List.append_assoc]
      · rw [if_neg h1, if_neg h2, ih]
        simp [h1, h2]

/-- C5: `get_optimizer` returns an Adam optimizer with exactly two parameter
groups: the dimension-2-or-4 parameters under the caller-supplied weight
decay, and the dimension-1 parameters under weight decay 0; lr and betas are
the given ones. -/
theorem get_optimizer_groups (net : List Param) (lr_start : Val)
    (optimizer_betas : Val × Val) (weight_decay : Val) :
    let opt := get_optimizer net lr_start optimizer_betas weight_decay
    opt.param_groups.length = 2 ∧
    (opt.param_groups.get? 0).map ParamGroup.params =
      some (net.filter (fun p => p.dim ≠ 1 ∧ (p.dim = 2 ∨ p.dim = 4))) ∧
    (opt.param_groups.get? 0).map (effectiveWd opt) = some weight_decay ∧
    (opt.param_groups.get? 1).map ParamGroup.params =
      some (net.filter (fun p => p.dim = 1)) ∧
    (opt.param_groups.get? 1).map (effectiveWd opt) = some 0 ∧
    opt.lr = lr_start ∧ opt.betas = optimizer_betas := by
  refine ⟨rfl, ?_, rfl, ?_, rfl, rfl, rfl⟩
  · simp [get_optimizer, paramSplit_foldl net [] []]
  · simp [get_optimizer, paramSplit_foldl net [] []]

/-- C8: a parameter whose dimension is not 1, 2 or 4 is placed in neither
parameter group of the optimizer returned by `get_optimizer`. -/
theorem get_optimizer_drops_other_dims (net : List Param) (lr_start : Val)
    (optimizer_betas : Val × Val) (weight_decay : Val) (p : Param)
    (hmem : p ∈ net) (hdim : p.dim ≠ 1 ∧ p.dim ≠ 2 ∧ p.dim ≠ 4) :
    ∀ g ∈ (get_optimizer net lr_start optimizer_betas weight_decay).param_groups,
      p ∉ g.params := by
  intro g hg
  have hsplit := paramSplit_foldl net [] []
  simp only [get_optimizer, hsplit] at hg
  simp only [List.mem_cons, List.mem_singleton] at hg
  rcases hg with hg | hg | hg
  · subst hg
    intro hp
    simp only [List.nil_append, List.mem_filter, decide_eq_true_eq] at hp
    rcases hp.2.2 with h | h
    · exact hdim.2.1 h
    · exact hdim.2.2 h
  · subst hg
    intro hp
    simp only [List.nil_append, List.mem_filter, decide_eq_true_eq] at hp
    exact hdim.1 hp.2
  · exact absurd hg (by simp)

/-- Witness for C8 at a concrete input: a dimension-3 parameter lands in
neither of the two groups. -/
theorem get_optimizer_drops_other_dims_witness :
    (⟨"w", 3⟩ : Param) ∉
      ((get_optimizer [⟨"w", 3⟩] 1 (1, 1) 1).param_groups.getD 0 ⟨[], none⟩).params ∧
    (⟨"w", 3⟩ : Param) ∉
      ((get_optimizer [⟨"w", 3⟩] 1 (1, 1) 1).param_groups.getD 1 ⟨[], none⟩).params :=
  ⟨get_optimizer_drops_other_dims [⟨"w", 3⟩] 1 (1, 1) 1 ⟨"w", 3⟩
      (by simp) (by simp) _ (by decide),
   get_optimizer_drops_other_dims [⟨"w", 3⟩] 1 (1, 1) 1 ⟨"w", 3⟩
      (by simp) (by simp) _ (by decide)⟩

/-! ## Configuration, arguments and the framework oracle -/

/-- The command-line arguments produced by `parse_args` (lines 34-65). -/
structure Args where
  local_rank : Nat
  port : Nat
  model : String
  finetune_from : String
  im_root : String
  train_im_anns : String
  val_im_anns : String
  log_path : String
  false_analysis_path : String
  tensorboard_path : String
  models_path : String
  config_path : String
  amp : Bool
  deriving DecidableEq

/-- The YAML configuration values read in the `__main__` block and passed to
`train` (lines 334-339). -/
structure Cfg where
  ims_per_gpu : Nat
  scales : List Val
  crop_size : Nat × Nat
  max_iter : Nat
  use_sync_bn : Bool
  num_aux_heads : Nat
  warmup_iters : Nat
  use_fp16 : Bool
  message_iters : Nat
  checkpoint_iters : Nat
  lr_start : Val
  optimizer_betas : Val × Val
  weight_decay : Val
  deriving DecidableEq

/-- The oracle supplying the results of framework calls in the total trace
semantics: the distributed rank, the loss values produced by the criteria,
the arity of the network's auxiliary outputs, the evaluation results of the
k-th `eval_model` call, the scheduler's per-group learning rates after a
given number of steps, an identifier for `net.module.state_dict()` at each
iteration, filesystem facts, and the parsed YAML config per path. -/
structure Env where
  rank : Nat
  lossPre : Nat → Val
  lossAux : Nat → Nat → Val
  auxArity : Nat → Nat
  evalHeads : Nat → List String
  evalMious : Nat → List Val
  schedLrs : Nat → List Val
  netState : Nat → Nat
  existingDirs : String → Nat
  pathExists : String → Bool
  yamlCfg : String → Cfg

/-- An observable action of the script, in program order. -/
inductive Event where
  | cudaMove (tensor : String) (i : Nat)
  | addGraph
  | squeeze (i : Nat)
  | zeroGrad (i : Nat)
  | autocast (enabled : Bool)
  | forward (i : Nat)
  | addScalar (tag : String) (v : Val) (i : Nat)
  | scaleBackward (v : Val)
  | scalerStep
  | scalerUpdate
  | cudaSync
  | timeMeterUpdate
  | meterUpdate (meter : String) (v : Val)
  | printLog (i : Nat) (lr : Val)
  | logInfo (msg : String)
  | emptyCache
  | evalModel (k : Nat)
  | torchSave (path : String) (state : Nat)
  | schedStep
  | writerFlush
  | writerClose
  | setDevice (rank : Nat)
  | initProcessGroup (port rank : Nat)
  | makedirs (path : String)
  | setupLogger (name path : String)
  deriving DecidableEq

/-- Modelled from the spec: `get_next_file_name` (imported from
`fast_segmentation.core.utils`, not part of `train.py`) returns a fresh file
path inside `dir`, with the given name prefix and suffix; the fresh index
`k` is the number of such files already produced in `dir`. -/
def get_next_file_name (dir pre suf : String) (k : Nat) : String :=
  dir ++ "/" ++ pre ++ toString k ++ suf

/-- Modelled from the spec: `get_next_dir_name` (imported from
`fast_segmentation.core.utils`, not part of `train.py`) returns a fresh
directory path inside `root_dir`; `k` is the number of directories already
present there. -/
def get_next_dir_name (root_dir : String) (k : Nat) : String :=
  root_dir ++ "/" ++ toString k

/-- The mutable state threaded through the training loop: the best score so
far, the number of `eval_model` calls made, the number of scheduler steps
taken, and the file counters backing `get_next_file_name` for `log_path`
and for `models_dir`. -/
structure LoopState where
  bestScore : Val
  evalCalls : Nat
  schedSteps : Nat
  logFiles : Nat
  modelFiles : Nat
  deriving DecidableEq

/-- Embedding of `save_best_model(cur_score, best_score, models_dir, net)`
(lines 124-145): when `cur_score > best_score` the best score is replaced
and the state dict is written to `models_dir/best_model.pth` by rank 0;
returns the (possibly updated) best score together with the emitted
events. -/
def save_best_model (cur_score best_score : Val) (models_dir : String)
    (netState rank : Nat) : Val × List Event :=
  if cur_score > best_score then
    (cur_score,
     if rank = 0 then [.torchSave (models_dir ++ "/best_model.pth") netState]
     else [])
  else (best_score, [])

/-- Embedding of `log_ious(writer, mious, iteration, headers, logger, mode)`
(lines 112-121): four `add_scalar` calls and one tabulated log line.  The
Python 4-tuple unpacking of `mious` is totalized by indexing with default
0. -/
def log_ious (mious : List Val) (iteration : Nat) (mode : String) :
    List Event :=
  [.addScalar ("mIOU/" ++ mode ++ "/single_scale") (mious.getD 0 0) iteration,
   .addScalar ("mIOU/" ++ mode ++ "/single_scale_crop") (mious.getD 1 0) iteration,
   .addScalar ("mIOU/" ++ mode ++ "/multi_scale_flip") (mious.getD 2 0) iteration,
   .addScalar ("mIOU/" ++ mode ++ "/multi_scale_flip_crop") (mious.getD 3 0) iteration,
   .logInfo ("iou-table/" ++ mode)]

/-- Embedding of `save_evaluation_log(...)` (lines 148-192): logs the next log-file name,
empties the CUDA cache, evaluates the val set and the train set (the
`evalIdx`-th and `(evalIdx+1)`-th `eval_model` calls), logs both mIOU
tables, and updates the best model from `mious_val[0]` (totalized as
`getD 0 0`).  Returns the new best score and the emitted events. -/
def save_evaluation_log (models_dir log_path : String) (env : Env)
    (iteration : Nat) (best_score : Val) (evalIdx logIdx netState : Nat) :
    Val × List Event :=
  let log_pth := get_next_file_name log_path "model_final_" ".pth" logIdx
  let mious_val := env.evalMious evalIdx
  let mious_train := env.evalMious (evalIdx + 1)
  let r := save_best_model (mious_val.getD 0 0) best_score models_dir netState env.rank
  (r.1,
   [.logInfo ("evaluating the model, save models to " ++ log_pth), .emptyCache,
    .evalModel evalIdx]
   ++ log_ious mious_val iteration "val"
   ++ [.evalModel (evalIdx + 1)]
   ++ log_ious mious_train iteration "train"
   ++ r.2)

/-- Embedding of `save_checkpoint(models_dir, net)` (lines 195-210): computes the next
file name `model_final_<k>.pth` in `models_dir`, takes the state dict, and
rank 0 writes it. -/
def save_checkpoint (models_dir : String) (netState rank fileIdx : Nat) :
    List Event :=
  let save_pth := get_next_file_name models_dir "model_final_" ".pth" fileIdx
  if rank = 0 then [.torchSave save_pth netState] else []

/-- The number of auxiliary losses computed at iteration `i`:
`zip(criteria_aux, logits_aux)` truncates to the shorter of the
`num_aux_heads` criteria and the network's auxiliary outputs. -/
def numAuxAt (cfg : Cfg) (env : Env) (i : Nat) : Nat :=
  min cfg.num_aux_heads (env.auxArity i)

/-- The total loss of iteration `i` (line 280):
`loss = loss_pre + sum(loss_aux)`. -/
def lossAt (cfg : Cfg) (env : Env) (i : Nat) : Val :=
  env.lossPre i + ((List.range (numAuxAt cfg env i)).map (env.lossAux i)).sum

/-- The unconditional part of a loop iteration (lines 266-291): move the
batch to the GPU, log the graph at iteration 0, squeeze the label, zero the
gradients, compute the losses inside the autocast region and log the total,
run the scaled backward pass and the scaler step and update, synchronize,
and update the time and loss meters. -/
def iterBase (cfg : Cfg) (env : Env) (i : Nat) : List Event :=
  [.cudaMove "image" i, .cudaMove "label" i]
  ++ (if i = 0 then [.addGraph] else [])
  ++ [.squeeze i, .zeroGrad i,
      .autocast cfg.use_fp16, .forward i,
      .addScalar "Loss/train" (lossAt cfg env i) i,
      .scaleBackward (lossAt cfg env i), .scalerStep, .scalerUpdate, .cudaSync,
      .timeMeterUpdate,
      .meterUpdate "loss" (lossAt cfg env i),
      .meterUpdate "loss_prem" (env.lossPre i)]
  ++ (List.range (numAuxAt cfg env i)).map
      (fun j => .meterUpdate ("loss_aux" ++ toString j) (env.lossAux i j))

/-- The periodic log message (lines 294-297): when `(iteration + 1)` is a
multiple of `message_iters`, report the average of the scheduler's
per-group learning rates, `lr = sum(lr) / len(lr)`. -/
def iterMsg (cfg : Cfg) (env : Env) (i : Nat) (st : LoopState) : List Event :=
  if (i + 1) % cfg.message_iters = 0 then
    let lrs := env.schedLrs st.schedSteps
    [.printLog i (lrs.sum / (lrs.length : Val))]
  else []

/-- The periodic evaluation and checkpoint (lines 300-305): when
`(iteration + 1)` is a multiple of `checkpoint_iters`, run
`save_evaluation_log` (updating `best_score`) and then `save_checkpoint`.
Returns the updated loop state together with the emitted events. -/
def iterCkpt (cfg : Cfg) (env : Env) (models_dir log_path : String)
    (i : Nat) (st : LoopState) : LoopState × List Event :=
  if (i + 1) % cfg.checkpoint_iters = 0 then
    let r := save_evaluation_log models_dir log_path env i st.bestScore
      st.evalCalls st.logFiles (env.netState i)
    let st' : LoopState :=
      { st with
        bestScore := r.1
        evalCalls := st.evalCalls + 2
        modelFiles := st.modelFiles + 1 }
    (st', r.2 ++ save_checkpoint models_dir (env.netState i) env.rank
      st.modelFiles)
  else (st, [])

/-- One iteration of the training loop (lines 265-307) at index `i` with
loop state `st`: the unconditional part, the periodic log message, the
periodic evaluation and checkpoint, and finally `lr_scheduler.step()`. -/
def iterBody (cfg : Cfg) (env : Env) (models_dir log_path : String)
    (i : Nat) (st : LoopState) : LoopState × List Event :=
  let c := iterCkpt cfg env models_dir log_path i st
  ({ c.1 with schedSteps := st.schedSteps + 1 },
   iterBase cfg env i ++ iterMsg cfg env i st ++ c.2 ++ [.schedStep])

/-- The training loop: iterations `i, i+1, ...` for `n` remaining batches
of the data loader. -/
def runIters (cfg : Cfg) (env : Env) (models_dir log_path : String) :
    Nat → Nat → LoopState → LoopState × List Event
  | 0, _, st => (st, [])
  | n + 1, i, st =>
    let r := iterBody cfg env models_dir log_path i st
    let rest := runIters cfg env models_dir log_path n (i + 1) r.1
    (rest.1, r.2 ++ rest.2)

/-- The initial loop state: `best_score = 0`, no eval calls, no scheduler
steps, no files yet in the fresh directories. -/
def initState : LoopState := ⟨0, 0, 0, 0, 0⟩

/-- Embedding of `train(...)` (lines 213-310): allocates fresh tensorboard and model
directories (via the global `args`), runs the loop over the `max_iter`
batches of the data loader, and flushes and closes the writer.  The global
`args` of the script is passed explicitly; the config values are bundled in
`cfg`. -/
def train (a : Args) (cfg : Cfg) (env : Env) : LoopState × List Event :=
  let models_dir := get_next_dir_name a.models_path (env.existingDirs a.models_path)
  let r := runIters cfg env models_dir a.log_path cfg.max_iter 0 initState
  (r.1, r.2 ++ [.writerFlush, .writerClose])

/-- The `__main__` block (lines 313-339): parses arguments (given here as
`a`), loads the YAML config from `a.config_path`, empties the CUDA cache,
sets the device, initializes the process group, creates the log directory
when missing, sets up the logger, and calls `train` with the config
values. -/
def main_block (a : Args) (env : Env) : LoopState × List Event :=
  let cfg := env.yamlCfg a.config_path
  let r := train a cfg env
  (r.1,
   [.emptyCache, .setDevice a.local_rank, .initProcessGroup a.port a.local_rank]
   ++ (if env.pathExists a.log_path = false then [.makedirs a.log_path] else [])
   ++ [.setupLogger (a.model ++ "-train") a.log_path]
   ++ r.2)

/-- The default argument values of `parse_args` (lines 41-65). -/
def parse_args : Args :=
  { local_rank := 0
    port := 44554
    model := "bisenetv2"
    finetune_from := "/home/bina/PycharmProjects/fast-segmentation/models/5/best_model.pth"
    im_root := "/home/bina/PycharmProjects/fast-segmentation/data"
    train_im_anns := "/home/bina/PycharmProjects/fast-segmentation/data/train.txt"
    val_im_anns := "/home/bina/PycharmProjects/fast-segmentation/data/val.txt"
    log_path := "/home/bina/PycharmProjects/fast-segmentation/logs/regular_logs"
    false_analysis_path := "/home/bina/PycharmProjects/fast-segmentation/data/false_analysis"
    tensorboard_path := "/home/bina/PycharmProjects/fast-segmentation/logs/tensorboard_logs"
    models_path := "/home/bina/PycharmProjects/fast-segmentation/models"
    config_path := "/home/bina/PycharmProjects/fast-segmentation/configs/main_cfg.yaml"
    amp := true }

/-! ## Helper predicates on events -/

/-- An event that writes a model file (`torch.save`). -/
def isTorchSave : Event → Bool
  | .torchSave _ _ => true
  | _ => false

/-- An `eval_model` call event. -/
def isEvalModel : Event → Bool
  | .evalModel _ => true
  | _ => false

/-- A gradient-scaler event: `scaler.scale(loss).backward()`,
`scaler.step(optimizer)` or `scaler.update()`. -/
def isScalerEvent : Event → Bool
  | .scaleBackward _ => true
  | .scalerStep => true
  | .scalerUpdate => true
  | _ => false

/-- An `amp.autocast` region event. -/
def isAutocast : Event → Bool
  | .autocast _ => true
  | _ => false

/-- A loss-meter update event (`AvgMeter.update`). -/
def isMeterUpdate : Event → Bool
  | .meterUpdate _ _ => true
  | _ => false

/-- The arithmetic mean of a list of values (the spec's description of the
learning rate reported by the periodic log message). -/
def arithMean (l : List Val) : Val := l.sum / (l.length : Val)

/-- Every event emitted by `save_evaluation_log` is a log line, a cache
flush, an `eval_model` call, a scalar write or a `torch.save`. -/
theorem save_evaluation_log_shapes (models_dir log_path : String) (env : Env)
    (iteration : Nat) (best : Val) (evalIdx logIdx netState : Nat) :
    ∀ e ∈ (save_evaluation_log models_dir log_path env iteration best
        evalIdx logIdx netState).2,
      (∃ m, e = .logInfo m) ∨ e = .emptyCache ∨ (∃ k, e = .evalModel k) ∨
      (∃ t v n, e = .addScalar t v n) ∨ (∃ pth s, e = .torchSave pth s) := by
  intro e he
  simp only [save_evaluation_log, log_ious, save_best_model] at he
  split_ifs at he <;>
    simp only [List.mem_append, List.mem_cons, List.mem_singleton,
      List.not_mem_nil, or_false] at he <;>
    casesm* _ ∨ _ <;> subst_vars <;> simp

/-- Every event emitted by `save_checkpoint` is a `torch.save`. -/
theorem save_checkpoint_shapes (models_dir : String) (netState rank fileIdx : Nat) :
    ∀ e ∈ save_checkpoint models_dir netState rank fileIdx,
      ∃ pth s, e = .torchSave pth s := by
  intro e he
  simp only [save_checkpoint] at he
  split_ifs at he <;> simp only [List.mem_singleton, List.not_mem_nil] at he
  subst he
  exact ⟨_, _, rfl⟩

/-- Every event of the checkpoint branch comes from `save_evaluation_log`
or `save_checkpoint`. -/
theorem iterCkpt_shapes (cfg : Cfg) (env : Env) (models_dir log_path : String)
    (i : Nat) (st : LoopState) :
    ∀ e ∈ (iterCkpt cfg env models_dir log_path i st).2,
      (∃ m, e = .logInfo m) ∨ e = .emptyCache ∨ (∃ k, e = .evalModel k) ∨
      (∃ t v n, e = .addScalar t v n) ∨ (∃ pth s, e = .torchSave pth s) := by
  intro e he
  simp only [iterCkpt] at he
  split_ifs at he
  · rcases List.mem_append.mp he with h | h
    · exact save_evaluation_log_shapes _ _ _ _ _ _ _ _ e h
    · obtain ⟨pth, s, rfl⟩ := save_checkpoint_shapes _ _ _ _ e h
      exact Or.inr (Or.inr (Or.inr (Or.inr ⟨pth, s, rfl⟩)))
  · simp at he

/-- The checkpoint branch emits nothing off-period. -/
theorem iterCkpt_off (cfg : Cfg) (env : Env) (models_dir log_path : String)
    (i : Nat) (st : LoopState) (hc : (i + 1) % cfg.checkpoint_iters ≠ 0) :
    iterCkpt cfg env models_dir log_path i st = (st, []) := by
  simp [iterCkpt, hc]

/-- No model file is written by the unconditional part of an iteration. -/
theorem torchSave_not_mem_iterBase (cfg : Cfg) (env : Env) (i : Nat)
    (pth : String) (s : Nat) : Event.torchSave pth s ∉ iterBase cfg env i := by
  by_cases h0 : i = 0 <;> simp [iterBase, h0]

/-- No `eval_model` call happens in the unconditional part of an
iteration. -/
theorem evalModel_not_mem_iterBase (cfg : Cfg) (env : Env) (i k : Nat) :
    Event.evalModel k ∉ iterBase cfg env i := by
  by_cases h0 : i = 0 <;> simp [iterBase, h0]

/-- No scheduler step happens in the unconditional part of an iteration. -/
theorem schedStep_not_mem_iterBase (cfg : Cfg) (env : Env) (i : Nat) :
    Event.schedStep ∉ iterBase cfg env i := by
  by_cases h0 : i = 0 <;> simp [iterBase, h0]

/-- No log message is printed by the unconditional part of an iteration. -/
theorem printLog_not_mem_iterBase (cfg : Cfg) (env : Env) (i j : Nat)
    (lr : Val) : Event.printLog j lr ∉ iterBase cfg env i := by
  by_cases h0 : i = 0 <;> simp [iterBase, h0]

/-- Membership in the periodic log message trace. -/
theorem mem_iterMsg (cfg : Cfg) (env : Env) (i : Nat) (st : LoopState)
    (e : Event) :
    e ∈ iterMsg cfg env i st ↔
      (i + 1) % cfg.message_iters = 0 ∧
      e = .printLog i ((env.schedLrs st.schedSteps).sum /
        (((env.schedLrs st.schedSteps).length : Nat) : Val)) := by
  by_cases hm : (i + 1) % cfg.message_iters = 0 <;> simp [iterMsg, hm]

/-- When the checkpoint condition holds, the val-set `eval_model` call is in
the checkpoint branch's trace. -/
theorem evalModel_mem_iterCkpt (cfg : Cfg) (env : Env)
    (models_dir log_path : String) (i : Nat) (st : LoopState)
    (hc : (i + 1) % cfg.checkpoint_iters = 0) :
    Event.evalModel st.evalCalls ∈ (iterCkpt cfg env models_dir log_path i st).2 := by
  simp [iterCkpt, hc, save_evaluation_log, List.mem_append]

/-- C1: evaluation (`save_evaluation_log`) and a checkpoint save
(`save_checkpoint`) happen at iteration `i` exactly when `(i + 1)` is a
multiple of `checkpoint_iters`; on all other iterations no `torch.save`
occurs. -/
theorem checkpoint_and_eval_iff (cfg : Cfg) (env : Env)
    (models_dir log_path : String) (i : Nat) (st : LoopState)
    (hci : 0 < cfg.checkpoint_iters) :
    ((i + 1) % cfg.checkpoint_iters = 0 →
      (iterBody cfg env models_dir log_path i st).2 =
        iterBase cfg env i ++ iterMsg cfg env i st
        ++ ((save_evaluation_log models_dir log_path env i st.bestScore
              st.evalCalls st.logFiles (env.netState i)).2
            ++ save_checkpoint models_dir (env.netState i) env.rank st.modelFiles)
        ++ [Event.schedStep]) ∧
    ((i + 1) % cfg.checkpoint_iters ≠ 0 →
      ∀ pth s, Event.torchSave pth s ∉ (iterBody cfg env models_dir log_path i st).2) ∧
    ((∃ k, Event.evalModel k ∈ (iterBody cfg env models_dir log_path i st).2) ↔
      (i + 1) % cfg.checkpoint_iters = 0) := by
  refine ⟨fun hc => ?_, fun hc pth s hmem => ?_, ?_, fun hc => ?_⟩
  · simp only [iterBody, iterCkpt, if_pos hc]
  · simp only [iterBody, iterCkpt_off cfg env models_dir log_path i st hc,
      List.append_nil, List.mem_append, List.mem_singleton] at hmem
    rcases hmem with (h | h) | h
    · exact torchSave_not_mem_iterBase cfg env i pth s h
    · rcases (mem_iterMsg cfg env i st _).mp h with ⟨_, h'⟩
      exact Event.noConfusion h'
    · exact Event.noConfusion h
  · rintro ⟨k, hk⟩
    by_contra hc
    simp only [iterBody, iterCkpt_off cfg env models_dir log_path i st hc,
      List.append_nil, List.mem_append, List.mem_singleton] at hk
    rcases hk with (h | h) | h
    · exact evalModel_not_mem_iterBase cfg env i k h
    · rcases (mem_iterMsg cfg env i st _).mp h with ⟨_, h'⟩
      exact Event.noConfusion h'
    · exact Event.noConfusion h
  · refine ⟨st.evalCalls, ?_⟩
    have hm := evalModel_mem_iterCkpt cfg env models_dir log_path i st hc
    simp only [iterBody, List.mem_append]
    tauto

/-- A concrete configuration used by the witnesses. -/
def cfgW : Cfg :=
  { ims_per_gpu := 4
    scales := [1]
    crop_size := (128, 128)
    max_iter := 4
    use_sync_bn := false
    num_aux_heads := 2
    warmup_iters := 1
    use_fp16 := true
    message_iters := 1
    checkpoint_iters := 2
    lr_start := 1
    optimizer_betas := (1, 1)
    weight_decay := 1 }

/-- A concrete oracle used by the witnesses. -/
def envW : Env :=
  { rank := 0
    lossPre := fun _ => 1
    lossAux := fun _ _ => 1
    auxArity := fun _ => 2
    evalHeads := fun _ => ["a", "b", "c", "d"]
    evalMious := fun _ => [1, 0, 0, 0]
    schedLrs := fun _ => [1, 1]
    netState := fun i => i
    existingDirs := fun _ => 0
    pathExists := fun _ => true
    yamlCfg := fun _ => cfgW }

/-- Witness for C1 at a concrete input. -/
theorem checkpoint_and_eval_iff_witness :
    (∃ k, Event.evalModel k ∈ (iterBody cfgW envW "m" "l" 1 initState).2) ↔
      (1 + 1) % cfgW.checkpoint_iters = 0 :=
  (checkpoint_and_eval_iff cfgW envW "m" "l" 1 initState (by decide)).2.2

/-- C2: `save_checkpoint` writes the model state dict to the fresh path
`get_next_file_name(models_dir, 'model_final_', '.pth')`, which lies inside
`models_dir`, and only the rank-0 process writes. -/
theorem save_checkpoint_rank0_write (models_dir : String)
    (netState rank fileIdx : Nat) :
    save_checkpoint models_dir netState rank fileIdx =
      (if rank = 0 then
        [Event.torchSave
          (get_next_file_name models_dir "model_final_" ".pth" fileIdx) netState]
      else []) ∧
    ∃ rest, get_next_file_name models_dir "model_final_" ".pth" fileIdx =
      models_dir ++ "/" ++ rest := by
  refine ⟨rfl, ⟨"model_final_" ++ toString fileIdx ++ ".pth", ?_⟩⟩
  simp only [get_next_file_name]
  rw [String.append_assoc (models_dir ++ "/"),
    String.append_assoc (models_dir ++ "/")]

/-- The scaler events of the unconditional part of an iteration: the
backward pass on the scaled total loss, then the scaler step, then the
scaler update. -/
theorem iterBase_filter_scaler (cfg : Cfg) (env : Env) (i : Nat) :
    (iterBase cfg env i).filter isScalerEvent =
      [.scaleBackward (lossAt cfg env i), .scalerStep, .scalerUpdate] := by
  by_cases h0 : i = 0 <;>
    simp [iterBase, h0, isScalerEvent, List.filter_append, List.filter_map,
      Function.comp]

/-- The only autocast event of the unconditional part carries `use_fp16`. -/
theorem iterBase_filter_autocast (cfg : Cfg) (env : Env) (i : Nat) :
    (iterBase cfg env i).filter isAutocast = [.autocast cfg.use_fp16] := by
  by_cases h0 : i = 0 <;>
    simp [iterBase, h0, isAutocast, List.filter_append, List.filter_map,
      Function.comp]

/-- The loss-meter updates of the unconditional part: the total loss, the
main loss, and the auxiliary losses in order. -/
theorem iterBase_filter_meter (cfg : Cfg) (env : Env) (i : Nat) :
    (iterBase cfg env i).filter isMeterUpdate =
      [.meterUpdate "loss" (lossAt cfg env i),
       .meterUpdate "loss_prem" (env.lossPre i)]
      ++ (List.range (numAuxAt cfg env i)).map
          (fun j => .meterUpdate ("loss_aux" ++ toString j) (env.lossAux i j)) := by
  by_cases h0 : i = 0 <;>
    simp [iterBase, h0, isMeterUpdate, List.filter_append, List.filter_map,
      Function.comp_def, List.filter_true]

/-- The periodic log message emits no scaler, autocast or meter events,
and neither an `eval_model` call, a scheduler step nor a save. -/
theorem iterMsg_filter_nil (cfg : Cfg) (env : Env) (i : Nat) (st : LoopState)
    (p : Event → Bool) (hp : ∀ j lr, p (.printLog j lr) = false) :
    (iterMsg cfg env i st).filter p = [] := by
  by_cases hm : (i + 1) % cfg.message_iters = 0 <;> simp [iterMsg, hm, hp]

/-- The checkpoint branch emits none of the events of the loop body proper:
any predicate false on log lines, cache flushes, `eval_model` calls, scalar
writes and saves filters it to nothing. -/
theorem iterCkpt_filter_nil (cfg : Cfg) (env : Env)
    (models_dir log_path : String) (i : Nat) (st : LoopState)
    (p : Event → Bool) (hLog : ∀ m, p (.logInfo m) = false)
    (hEC : p .emptyCache = false) (hEM : ∀ k, p (.evalModel k) = false)
    (hAS : ∀ t v n, p (.addScalar t v n) = false)
    (hTS : ∀ pth s, p (.torchSave pth s) = false) :
    ((iterCkpt cfg env models_dir log_path i st).2).filter p = [] := by
  rw [List.filter_eq_nil_iff]
  intro e he
  rcases iterCkpt_shapes cfg env models_dir log_path i st e he with
    ⟨m, rfl⟩ | rfl | ⟨k, rfl⟩ | ⟨t, v, n, rfl⟩ | ⟨pth, s, rfl⟩ <;>
    simp [hLog, hEC, hEM, hAS, hTS]

/-- C4: in every iteration the backward pass runs on the scaled total loss
`scaler.scale(loss)` and the optimizer step goes through `scaler.step`
followed by `scaler.update`, exactly once each and in that order; the
autocast region is entered exactly once, enabled precisely by `use_fp16`. -/
theorem scaler_and_autocast_per_iteration (cfg : Cfg) (env : Env)
    (models_dir log_path : String) (i : Nat) (st : LoopState) :
    ((iterBody cfg env models_dir log_path i st).2).filter isScalerEvent =
      [.scaleBackward (lossAt cfg env i), .scalerStep, .scalerUpdate] ∧
    ((iterBody cfg env models_dir log_path i st).2).filter isAutocast =
      [.autocast cfg.use_fp16] := by
  constructor
  · simp only [iterBody, List.filter_append, iterBase_filter_scaler,
      iterMsg_filter_nil cfg env i st isScalerEvent (fun _ _ => rfl),
      iterCkpt_filter_nil cfg env models_dir log_path i st isScalerEvent
        (fun _ => rfl) rfl (fun _ => rfl) (fun _ _ _ => rfl) (fun _ _ => rfl)]
    simp [isScalerEvent]
  · simp only [iterBody, List.filter_append, iterBase_filter_autocast,
      iterMsg_filter_nil cfg env i st isAutocast (fun _ _ => rfl),
      iterCkpt_filter_nil cfg env models_dir log_path i st isAutocast
        (fun _ => rfl) rfl (fun _ => rfl) (fun _ _ _ => rfl) (fun _ _ => rfl)]
    simp [isAutocast]

/-- C6: the total loss of every iteration is the main loss plus the sum of
the auxiliary losses, and the loss meter, main-loss meter and each
auxiliary-loss meter are updated exactly once per iteration with the
corresponding value (when the network yields `num_aux_heads` auxiliary
outputs). -/
theorem loss_sum_and_meter_updates (cfg : Cfg) (env : Env)
    (models_dir log_path : String) (i : Nat) (st : LoopState)
    (h : env.auxArity i = cfg.num_aux_heads) :
    lossAt cfg env i =
      env.lossPre i + ((List.range cfg.num_aux_heads).map (env.lossAux i)).sum ∧
    ((iterBody cfg env models_dir log_path i st).2).filter isMeterUpdate =
      [.meterUpdate "loss" (lossAt cfg env i),
       .meterUpdate "loss_prem" (env.lossPre i)]
      ++ (List.range cfg.num_aux_heads).map
          (fun j => .meterUpdate ("loss_aux" ++ toString j) (env.lossAux i j)) := by
  have hn : numAuxAt cfg env i = cfg.num_aux_heads := by
    simp [numAuxAt, h]
  constructor
  · simp [lossAt, hn]
  · simp only [iterBody, List.filter_append, iterBase_filter_meter,
      iterMsg_filter_nil cfg env i st isMeterUpdate (fun _ _ => rfl),
      iterCkpt_filter_nil cfg env models_dir log_path i st isMeterUpdate
        (fun _ => rfl) rfl (fun _ => rfl) (fun _ _ _ => rfl) (fun _ _ => rfl),
      hn]
    simp [isMeterUpdate]

/-- Witness for C6 at a concrete input. -/
theorem loss_sum_and_meter_updates_witness :
    lossAt cfgW envW 1 =
      envW.lossPre 1 + ((List.range cfgW.num_aux_heads).map (envW.lossAux 1)).sum ∧
    ((iterBody cfgW envW "m" "l" 1 initState).2).filter isMeterUpdate =
      [.meterUpdate "loss" (lossAt cfgW envW 1),
       .meterUpdate "loss_prem" (envW.lossPre 1)]
      ++ (List.range cfgW.num_aux_heads).map
          (fun j => .meterUpdate ("loss_aux" ++ toString j) (envW.lossAux 1 j)) :=
  loss_sum_and_meter_updates cfgW envW "m" "l" 1 initState rfl

/-- The checkpoint branch prints no training log message. -/
theorem printLog_not_mem_iterCkpt (cfg : Cfg) (env : Env)
    (models_dir log_path : String) (i : Nat) (st : LoopState) (j : Nat)
    (lr : Val) : Event.printLog j lr ∉ (iterCkpt cfg env models_dir log_path i st).2 := by
  intro h
  rcases iterCkpt_shapes cfg env models_dir log_path i st _ h with
    ⟨m, hh⟩ | hh | ⟨k, hh⟩ | ⟨t, v, n, hh⟩ | ⟨pth, s, hh⟩ <;>
    exact Event.noConfusion hh

/-- The checkpoint branch does not step the scheduler. -/
theorem schedStep_not_mem_iterCkpt (cfg : Cfg) (env : Env)
    (models_dir log_path : String) (i : Nat) (st : LoopState) :
    Event.schedStep ∉ (iterCkpt cfg env models_dir log_path i st).2 := by
  intro h
  rcases iterCkpt_shapes cfg env models_dir log_path i st _ h with
    ⟨m, hh⟩ | hh | ⟨k, hh⟩ | ⟨t, v, n, hh⟩ | ⟨pth, s, hh⟩ <;>
    exact Event.noConfusion hh

/-- The periodic log message does not step the scheduler. -/
theorem schedStep_not_mem_iterMsg (cfg : Cfg) (env : Env) (i : Nat)
    (st : LoopState) : Event.schedStep ∉ iterMsg cfg env i st := by
  by_cases hm : (i + 1) % cfg.message_iters = 0 <;> simp [iterMsg, hm]

/-- C7: a training log message is printed at iteration `i` exactly when
`(i + 1)` is a multiple of `message_iters`; the learning rate it reports is
the arithmetic mean of the scheduler's per-group learning rates; and the
scheduler is stepped exactly once per iteration, as the last action of the
iteration (after any logging and checkpointing). -/
theorem message_log_and_sched_step (cfg : Cfg) (env : Env)
    (models_dir log_path : String) (i : Nat) (st : LoopState)
    (hmi : 0 < cfg.message_iters) :
    ((∃ lr, Event.printLog i lr ∈ (iterBody cfg env models_dir log_path i st).2) ↔
        (i + 1) % cfg.message_iters = 0) ∧
    (∀ j lr, Event.printLog j lr ∈ (iterBody cfg env models_dir log_path i st).2 →
        j = i ∧ lr = arithMean (env.schedLrs st.schedSteps)) ∧
    ((iterBody cfg env models_dir log_path i st).2).count Event.schedStep = 1 ∧
    ((iterBody cfg env models_dir log_path i st).2).getLast? =
      some Event.schedStep := by
  have hdec : ∀ j lr, Event.printLog j lr ∈ (iterBody cfg env models_dir log_path i st).2 →
      Event.printLog j lr ∈ iterMsg cfg env i st := by
    intro j lr h
    simp only [iterBody, List.mem_append, List.mem_singleton] at h
    rcases h with ((h | h) | h) | h
    · exact absurd h (printLog_not_mem_iterBase cfg env i j lr)
    · exact h
    · exact absurd h (printLog_not_mem_iterCkpt cfg env models_dir log_path i st j lr)
    · exact Event.noConfusion h
  refine ⟨⟨?_, ?_⟩, ?_, ?_, ?_⟩
  · rintro ⟨lr, h⟩
    exact ((mem_iterMsg cfg env i st _).mp (hdec i lr h)).1
  · intro hm
    refine ⟨(env.schedLrs st.schedSteps).sum /
      (((env.schedLrs st.schedSteps).length : Nat) : Val), ?_⟩
    have : Event.printLog i ((env.schedLrs st.schedSteps).sum /
        (((env.schedLrs st.schedSteps).length : Nat) : Val)) ∈ iterMsg cfg env i st :=
      (mem_iterMsg cfg env i st _).mpr ⟨hm, rfl⟩
    simp only [iterBody, List.mem_append]
    tauto
  · intro j lr h
    have := (mem_iterMsg cfg env i st _).mp (hdec j lr h)
    obtain ⟨-, h'⟩ := this
    injection h' with h1 h2
    exact ⟨h1, by rw [h2]; rfl⟩
  · simp only [iterBody, List.count_append]
    rw [List.count_eq_zero.mpr (schedStep_not_mem_iterBase cfg env i),
      List.count_eq_zero.mpr (schedStep_not_mem_iterMsg cfg env i st),
      List.count_eq_zero.mpr (schedStep_not_mem_iterCkpt cfg env models_dir log_path i st)]
    simp
  · simp [iterBody, List.getLast?_append]

/-- Witness for C7 at a concrete input. -/
theorem message_log_and_sched_step_witness :
    ((iterBody cfgW envW "m" "l" 0 initState).2).getLast? =
      some Event.schedStep :=
  (message_log_and_sched_step cfgW envW "m" "l" 0 initState (by decide)).2.2.2

/-- The score returned by `save_best_model` is the maximum of the current
and the previous best score. -/
theorem save_best_model_fst (cur_score best_score : Val) (models_dir : String)
    (netState rank : Nat) :
    (save_best_model cur_score best_score models_dir netState rank).1 =
      max cur_score best_score := by
  by_cases h : cur_score > best_score
  · simp [save_best_model, h, max_eq_left (le_of_lt h)]
  · simp [save_best_model, h, max_eq_right (le_of_not_lt h)]

/-- The score returned by `save_evaluation_log` is the maximum of
`mious_val[0]` and the previous best score. -/
theorem save_evaluation_log_fst (models_dir log_path : String) (env : Env)
    (iteration : Nat) (best_score : Val) (evalIdx logIdx netState : Nat) :
    (save_evaluation_log models_dir log_path env iteration best_score
        evalIdx logIdx netState).1 =
      max ((env.evalMious evalIdx).getD 0 0) best_score := by
  simp [save_evaluation_log, save_best_model_fst]

/-- C9: `save_best_model` returns `max(cur_score, best_score)` and writes
`best_model.pth` (on rank 0) exactly when `cur_score > best_score`; the
best score threaded through an iteration never decreases; and the score by
which `save_evaluation_log` selects the best model is the first entry of
the validation mIOU list. -/
theorem best_model_selection (cur_score best_score : Val)
    (models_dir log_path : String) (netState rank : Nat) (cfg : Cfg)
    (env : Env) (i : Nat) (st : LoopState) (m0 : Val) (ms : List Val)
    (hm : env.evalMious st.evalCalls = m0 :: ms) :
    (save_best_model cur_score best_score models_dir netState rank).1 =
      max cur_score best_score ∧
    (save_best_model cur_score best_score models_dir netState rank).2 =
      (if cur_score > best_score ∧ rank = 0 then
        [.torchSave (models_dir ++ "/best_model.pth") netState]
      else []) ∧
    st.bestScore ≤ (iterBody cfg env models_dir log_path i st).1.bestScore ∧
    (save_evaluation_log models_dir log_path env i st.bestScore st.evalCalls
        st.logFiles (env.netState i)).1 = max m0 st.bestScore := by
  refine ⟨save_best_model_fst cur_score best_score models_dir netState rank,
    ?_, ?_, ?_⟩
  · by_cases h : cur_score > best_score <;> by_cases hr : rank = 0 <;>
      simp [save_best_model, h, hr]
  · by_cases hc : (i + 1) % cfg.checkpoint_iters = 0
    · simp only [iterBody, iterCkpt, if_pos hc, save_evaluation_log_fst]
      exact le_max_right _ _
    · simp [iterBody, iterCkpt_off cfg env models_dir log_path i st hc]
  · rw [save_evaluation_log_fst, hm]
    rfl

/-- Witness for C9 at a concrete input. -/
theorem best_model_selection_witness :
    (save_evaluation_log "m" "l" envW 0 initState.bestScore
        initState.evalCalls initState.logFiles (envW.netState 0)).1 =
      max 1 initState.bestScore :=
  (best_model_selection 1 0 "m" "l" 7 0 cfgW envW 0 initState 1 [0, 0, 0]
    rfl).2.2.2

/-- C10: the `--amp` flag has no effect: two executions of the script
differing only in the parsed `amp` value are identical, because `args.amp`
is never read after parsing and the autocast region is enabled solely by
the YAML `use_fp16` value. -/
theorem amp_has_no_effect (a : Args) (env : Env) (b : Bool) :
    main_block { a with amp := b } env = main_block a env := by
  cases a
  rfl

/-! ## Exceptional semantics (error propagation, C3)

Every framework call is a primitive that may raise; the script's functions
are re-embedded as `Except String` computations (suffix `E`).  No function
of the script contains a `try`/`except`, so the embedding is a plain chain
of binds. -/

/-- The fallible framework primitives available to the script. -/
structure EnvE where
  rankP : Except String Nat
  stateDictP : Nat → Except String Nat
  cudaP : String → Nat → Except String Unit
  writerP : String → Except String Unit
  loaderP : Nat → Except String Unit
  squeezeP : Nat → Except String Unit
  zeroGradP : Nat → Except String Unit
  forwardP : Nat → Except String Nat
  lossPreP : Nat → Except String Val
  lossAuxP : Nat → Nat → Except String Val
  backwardP : Val → Except String Unit
  scalerStepP : Nat → Except String Unit
  scalerUpdateP : Nat → Except String Unit
  meterP : String → Except String Unit
  getLrP : Nat → Except String (List Val)
  printLogP : Nat → Except String Unit
  schedStepP : Nat → Except String Unit
  logInfoP : String → Except String Unit
  evalModelP : Nat → Except String (List String × List Val)
  torchSaveP : String → Except String Unit
  setupP : String → Except String Unit

/-- Some framework primitive of `env` returns the error `e` on some
input. -/
inductive RaisedBy (env : EnvE) (e : String) : Prop where
  | rankP : env.rankP = .error e → RaisedBy env e
  | stateDictP (i : Nat) : env.stateDictP i = .error e → RaisedBy env e
  | cudaP (s : String) (i : Nat) : env.cudaP s i = .error e → RaisedBy env e
  | writerP (s : String) : env.writerP s = .error e → RaisedBy env e
  | loaderP (i : Nat) : env.loaderP i = .error e → RaisedBy env e
  | squeezeP (i : Nat) : env.squeezeP i = .error e → RaisedBy env e
  | zeroGradP (i : Nat) : env.zeroGradP i = .error e → RaisedBy env e
  | forwardP (i : Nat) : env.forwardP i = .error e → RaisedBy env e
  | lossPreP (i : Nat) : env.lossPreP i = .error e → RaisedBy env e
  | lossAuxP (i j : Nat) : env.lossAuxP i j = .error e → RaisedBy env e
  | backwardP (v : Val) : env.backwardP v = .error e → RaisedBy env e
  | scalerStepP (i : Nat) : env.scalerStepP i = .error e → RaisedBy env e
  | scalerUpdateP (i : Nat) : env.scalerUpdateP i = .error e → RaisedBy env e
  | meterP (s : String) : env.meterP s = .error e → RaisedBy env e
  | getLrP (n : Nat) : env.getLrP n = .error e → RaisedBy env e
  | printLogP (i : Nat) : env.printLogP i = .error e → RaisedBy env e
  | schedStepP (i : Nat) : env.schedStepP i = .error e → RaisedBy env e
  | logInfoP (s : String) : env.logInfoP s = .error e → RaisedBy env e
  | evalModelP (k : Nat) : env.evalModelP k = .error e → RaisedBy env e
  | torchSaveP (pth : String) : env.torchSaveP pth = .error e → RaisedBy env e
  | setupP (s : String) : env.setupP s = .error e → RaisedBy env e

/-- Case analysis of a failed bind: either the first computation failed with
the same error, or it succeeded and the continuation failed. -/
theorem bindE_error {α β : Type} (x : Except String α)
    (f : α → Except String β) (e : String) (h : x.bind f = .error e) :
    x = .error e ∨ ∃ v, x = .ok v ∧ f v = .error e := by
  cases x with
  | error e' =>
    simp only [Except.bind] at h
    cases h
    exact Or.inl rfl
  | ok v => exact Or.inr ⟨v, rfl, h⟩

/-- Monadic map over a list of indices (the Python list comprehensions over
`zip(...)` in the loop body). -/
def mapME {α : Type} (f : Nat → Except String α) : List Nat → Except String (List α)
  | [] => .ok []
  | j :: js =>
    (f j).bind fun v =>
    (mapME f js).bind fun vs =>
    .ok (v :: vs)

/-- A failed monadic map names a failing element. -/
theorem mapME_error {α : Type} (f : Nat → Except String α) (l : List Nat)
    (e : String) (h : mapME f l = .error e) : ∃ j ∈ l, f j = .error e := by
  induction l with
  | nil => simp [mapME] at h
  | cons j js ih =>
    simp only [mapME] at h
    rcases bindE_error _ _ _ h with h1 | ⟨v, _, h2⟩
    · exact ⟨j, by simp, h1⟩
    · rcases bindE_error _ _ _ h2 with h3 | ⟨vs, _, h4⟩
      · obtain ⟨k, hk, hfk⟩ := ih h3
        exact ⟨k, by simp [hk], hfk⟩
      · simp at h4

/-- Embedding of `log_ious` in the exceptional semantics (lines 112-121). -/
def log_iousE (env : EnvE) (mode : String) : Except String Unit :=
  (env.writerP ("mIOU/" ++ mode ++ "/single_scale")).bind fun _ =>
  (env.writerP ("mIOU/" ++ mode ++ "/single_scale_crop")).bind fun _ =>
  (env.writerP ("mIOU/" ++ mode ++ "/multi_scale_flip")).bind fun _ =>
  (env.writerP ("mIOU/" ++ mode ++ "/multi_scale_flip_crop")).bind fun _ =>
  env.logInfoP ("iou-table/" ++ mode)

/-- Embedding of `save_best_model` in the exceptional semantics (lines 124-145). -/
def save_best_modelE (env : EnvE) (cur_score best_score : Val)
    (models_dir : String) (i : Nat) : Except String Val :=
  if cur_score > best_score then
    (env.stateDictP i).bind fun _ =>
    (env.rankP).bind fun r =>
    (if r = 0 then env.torchSaveP (models_dir ++ "/best_model.pth")
     else .ok ()).bind fun _ =>
    .ok cur_score
  else .ok best_score

/-- Embedding of `save_checkpoint` in the exceptional semantics (lines 195-210). -/
def save_checkpointE (env : EnvE) (models_dir : String) (i fileIdx : Nat) :
    Except String Unit :=
  (env.stateDictP i).bind fun _ =>
  (env.rankP).bind fun r =>
  if r = 0 then
    env.torchSaveP (get_next_file_name models_dir "model_final_" ".pth" fileIdx)
  else .ok ()

/-- Embedding of `save_evaluation_log` in the exceptional semantics (lines 148-192). -/
def save_evaluation_logE (env : EnvE) (models_dir log_path : String)
    (i : Nat) (best_score : Val) (evalIdx logIdx : Nat) : Except String Val :=
  (env.logInfoP ("evaluating the model, save models to " ++
      get_next_file_name log_path "model_final_" ".pth" logIdx)).bind fun _ =>
  (env.cudaP "empty_cache" i).bind fun _ =>
  (env.evalModelP evalIdx).bind fun rv =>
  (log_iousE env "val").bind fun _ =>
  (env.evalModelP (evalIdx + 1)).bind fun _ =>
  (log_iousE env "train").bind fun _ =>
  save_best_modelE env (rv.2.getD 0 0) best_score models_dir i

/-- One loop iteration in the exceptional semantics (lines 265-307). -/
def iterBodyE (cfg : Cfg) (env : EnvE) (models_dir log_path : String)
    (i : Nat) (st : LoopState) : Except String LoopState :=
  (env.loaderP i).bind fun _ =>
  (env.cudaP "image.cuda" i).bind fun _ =>
  (env.cudaP "label.cuda" i).bind fun _ =>
  (if i = 0 then env.writerP "add_graph" else .ok ()).bind fun _ =>
  (env.squeezeP i).bind fun _ =>
  (env.zeroGradP i).bind fun _ =>
  (env.forwardP i).bind fun nAux =>
  (env.lossPreP i).bind fun loss_pre =>
  (mapME (env.lossAuxP i) (List.range (min cfg.num_aux_heads nAux))).bind fun loss_aux =>
  (env.writerP "add_scalar/Loss/train").bind fun _ =>
  (env.backwardP (loss_pre + loss_aux.sum)).bind fun _ =>
  (env.scalerStepP i).bind fun _ =>
  (env.scalerUpdateP i).bind fun _ =>
  (env.cudaP "synchronize" i).bind fun _ =>
  (env.meterP "time").bind fun _ =>
  (env.meterP "loss").bind fun _ =>
  (env.meterP "loss_prem").bind fun _ =>
  (mapME (fun j => env.meterP ("loss_aux" ++ toString j))
      (List.range (min cfg.num_aux_heads nAux))).bind fun _ =>
  (if (i + 1) % cfg.message_iters = 0 then
      (env.getLrP st.schedSteps).bind fun _ => env.printLogP i
   else .ok ()).bind fun _ =>
  (if (i + 1) % cfg.checkpoint_iters = 0 then
      (save_evaluation_logE env models_dir log_path i st.bestScore
          st.evalCalls st.logFiles).bind fun b =>
      (save_checkpointE env models_dir i st.modelFiles).bind fun _ =>
      .ok { st with bestScore := b, evalCalls := st.evalCalls + 2, modelFiles := st.modelFiles + 1 }
   else .ok st).bind fun st1 =>
  (env.schedStepP i).bind fun _ =>
  .ok { st1 with schedSteps := st1.schedSteps + 1 }

/-- The training loop in the exceptional semantics. -/
def trainLoopE (cfg : Cfg) (env : EnvE) (models_dir log_path : String) :
    Nat → Nat → LoopState → Except String LoopState
  | 0, _, st => .ok st
  | n + 1, i, st =>
    (iterBodyE cfg env models_dir log_path i st).bind fun st' =>
    trainLoopE cfg env models_dir log_path n (i + 1) st'

/-- Embedding of `train` in the exceptional semantics (lines 213-310): the directory and
component construction calls before the loop, the loop, and the final
writer flush and close. -/
def trainE (cfg : Cfg) (env : EnvE) (a : Args) : Except String LoopState :=
  (env.setupP "get_next_dir_name/tensorboard").bind fun _ =>
  (env.setupP "get_next_dir_name/models").bind fun _ =>
  (env.setupP "SummaryWriter").bind fun _ =>
  (env.setupP "get_data_loader").bind fun _ =>
  (env.setupP "build_model").bind fun _ =>
  (env.setupP "named_parameters/Adam").bind fun _ =>
  (env.setupP "GradScaler").bind fun _ =>
  (env.setupP "meters").bind fun _ =>
  (env.setupP "WarmupPolyLrScheduler").bind fun _ =>
  (trainLoopE cfg env a.models_path a.log_path cfg.max_iter 0 initState).bind fun st =>
  (env.writerP "flush").bind fun _ =>
  (env.writerP "close").bind fun _ =>
  .ok st

/-- The `__main__` block in the exceptional semantics (lines 313-339). -/
def main_blockE (env : EnvE) (a : Args) (cfg : Cfg) : Except String LoopState :=
  (env.setupP "yaml.load").bind fun _ =>
  (env.cudaP "empty_cache" 0).bind fun _ =>
  (env.cudaP "set_device" a.local_rank).bind fun _ =>
  (env.setupP "init_process_group").bind fun _ =>
  (env.setupP "makedirs/setup_logger").bind fun _ =>
  trainE cfg env a

/-- A failed `log_iousE` traces back to a framework primitive. -/
theorem log_iousE_error (env : EnvE) (mode e : String)
    (h : log_iousE env mode = .error e) : RaisedBy env e := by
  simp only [log_iousE] at h
  rcases bindE_error _ _ _ h with h | ⟨_, _, h⟩
  · exact RaisedBy.writerP _ h
  rcases bindE_error _ _ _ h with h | ⟨_, _, h⟩
  · exact RaisedBy.writerP _ h
  rcases bindE_error _ _ _ h with h | ⟨_, _, h⟩
  · exact RaisedBy.writerP _ h
  rcases bindE_error _ _ _ h with h | ⟨_, _, h⟩
  · exact RaisedBy.writerP _ h
  exact RaisedBy.logInfoP _ h

/-- A failed `save_best_modelE` traces back to a framework primitive. -/
theorem save_best_modelE_error (env : EnvE) (cur_score best_score : Val)
    (models_dir : String) (i : Nat) (e : String)
    (h : save_best_modelE env cur_score best_score models_dir i = .error e) :
    RaisedBy env e := by
  simp only [save_best_modelE] at h
  split at h
  · rcases bindE_error _ _ _ h with h | ⟨_, _, h⟩
    · exact RaisedBy.stateDictP _ h
    rcases bindE_error _ _ _ h with h | ⟨_, _, h⟩
    · exact RaisedBy.rankP h
    rcases bindE_error _ _ _ h with h | ⟨_, _, h⟩
    · split at h
      · exact RaisedBy.torchSaveP _ h
      · simp at h
    · simp at h
  · simp at h

/-- A failed `save_checkpointE` traces back to a framework primitive. -/
theorem save_checkpointE_error (env : EnvE) (models_dir : String)
    (i fileIdx : Nat) (e : String)
    (h : save_checkpointE env models_dir i fileIdx = .error e) :
    RaisedBy env e := by
  simp only [save_checkpointE] at h
  rcases bindE_error _ _ _ h with h | ⟨_, _, h⟩
  · exact RaisedBy.stateDictP _ h
  rcases bindE_error _ _ _ h with h | ⟨_, _, h⟩
  · exact RaisedBy.rankP h
  split at h
  · exact RaisedBy.torchSaveP _ h
  · simp at h

/-- A failed `save_evaluation_logE` traces back to a framework primitive. -/
theorem save_evaluation_logE_error (env : EnvE) (models_dir log_path : String)
    (i : Nat) (best_score : Val) (evalIdx logIdx : Nat) (e : String)
    (h : save_evaluation_logE env models_dir log_path i best_score evalIdx
        logIdx = .error e) : RaisedBy env e := by
  simp only [save_evaluation_logE] at h
  rcases bindE_error _ _ _ h with h | ⟨_, _, h⟩
  · exact RaisedBy.logInfoP _ h
  rcases bindE_error _ _ _ h with h | ⟨_, _, h⟩
  · exact RaisedBy.cudaP _ _ h
  rcases bindE_error _ _ _ h with h | ⟨_, _, h⟩
  · exact RaisedBy.evalModelP _ h
  rcases bindE_error _ _ _ h with h | ⟨_, _, h⟩
  · exact log_iousE_error env "val" e h
  rcases bindE_error _ _ _ h with h | ⟨_, _, h⟩
  · exact RaisedBy.evalModelP _ h
  rcases bindE_error _ _ _ h with h | ⟨_, _, h⟩
  · exact log_iousE_error env "train" e h
  exact save_best_modelE_error env _ _ _ _ e h

/-- A failed loop iteration traces back to a framework primitive. -/
theorem iterBodyE_error (cfg : Cfg) (env : EnvE) (models_dir log_path : String)
    (i : Nat) (st : LoopState) (e : String)
    (h : iterBodyE cfg env models_dir log_path i st = .error e) :
    RaisedBy env e := by
  simp only [iterBodyE] at h
  rcases bindE_error _ _ _ h with h | ⟨_, _, h⟩
  · exact RaisedBy.loaderP _ h
  rcases bindE_error _ _ _ h with h | ⟨_, _, h⟩
  · exact RaisedBy.cudaP _ _ h
  rcases bindE_error _ _ _ h with h | ⟨_, _, h⟩
  · exact RaisedBy.cudaP _ _ h
  rcases bindE_error _ _ _ h with h | ⟨_, _, h⟩
  · split at h
    · exact RaisedBy.writerP _ h
    · simp at h
  rcases bindE_error _ _ _ h with h | ⟨_, _, h⟩
  · exact RaisedBy.squeezeP _ h
  rcases bindE_error _ _ _ h with h | ⟨_, _, h⟩
  · exact RaisedBy.zeroGradP _ h
  rcases bindE_error _ _ _ h with h | ⟨nAux, _, h⟩
  · exact RaisedBy.forwardP _ h
  rcases bindE_error _ _ _ h with h | ⟨_, _, h⟩
  · exact RaisedBy.lossPreP _ h
  rcases bindE_error _ _ _ h with h | ⟨_, _, h⟩
  · obtain ⟨j, -, hj⟩ := mapME_error _ _ _ h
    exact RaisedBy.lossAuxP _ _ hj
  rcases bindE_error _ _ _ h with h | ⟨_, _, h⟩
  · exact RaisedBy.writerP _ h
  rcases bindE_error _ _ _ h with h | ⟨_, _, h⟩
  · exact RaisedBy.backwardP _ h
  rcases bindE_error _ _ _ h with h | ⟨_, _, h⟩
  · exact RaisedBy.scalerStepP _ h
  rcases bindE_error _ _ _ h with h | ⟨_, _, h⟩
  · exact RaisedBy.scalerUpdateP _ h
  rcases bindE_error _ _ _ h with h | ⟨_, _, h⟩
  · exact RaisedBy.cudaP _ _ h
  rcases bindE_error _ _ _ h with h | ⟨_, _, h⟩
  · exact RaisedBy.meterP _ h
  rcases bindE_error _ _ _ h with h | ⟨_, _, h⟩
  · exact RaisedBy.meterP _ h
  rcases bindE_error _ _ _ h with h | ⟨_, _, h⟩
  · exact RaisedBy.meterP _ h
  rcases bindE_error _ _ _ h with h | ⟨_, _, h⟩
  · obtain ⟨j, -, hj⟩ := mapME_error _ _ _ h
    exact RaisedBy.meterP _ hj
  rcases bindE_error _ _ _ h with h | ⟨_, _, h⟩
  · split at h
    · rcases bindE_error _ _ _ h with h | ⟨_, _, h⟩
      · exact RaisedBy.getLrP _ h
      · exact RaisedBy.printLogP _ h
    · simp at h
  rcases bindE_error _ _ _ h with h | ⟨st1, _, h⟩
  · split at h
    · rcases bindE_error _ _ _ h with h | ⟨_, _, h⟩
      · exact save_evaluation_logE_error env _ _ _ _ _ _ e h
      rcases bindE_error _ _ _ h with h | ⟨_, _, h⟩
      · exact save_checkpointE_error env _ _ _ e h
      · simp at h
    · simp at h
  rcases bindE_error _ _ _ h with h | ⟨_, _, h⟩
  · exact RaisedBy.schedStepP _ h
  · simp at h

/-- A failed training loop traces back to a framework primitive. -/
theorem trainLoopE_error (cfg : Cfg) (env : EnvE) (models_dir log_path : String) :
    ∀ (n i : Nat) (st : LoopState) (e : String),
      trainLoopE cfg env models_dir log_path n i st = .error e →
      RaisedBy env e := by
  intro n
  induction n with
  | zero => intro i st e h; simp [trainLoopE] at h
  | succ n ih =>
    intro i st e h
    simp only [trainLoopE] at h
    rcases bindE_error _ _ _ h with h | ⟨st', _, h⟩
    · exact iterBodyE_error cfg env models_dir log_path i st e h
    · exact ih (i + 1) st' e h

/-- A failed `trainE` traces back to a framework primitive. -/
theorem trainE_error (cfg : Cfg) (env : EnvE) (a : Args) (e : String)
    (h : trainE cfg env a = .error e) : RaisedBy env e := by
  simp only [trainE] at h
  rcases bindE_error _ _ _ h with h | ⟨_, _, h⟩
  · exact RaisedBy.setupP _ h
  rcases bindE_error _ _ _ h with h | ⟨_, _, h⟩
  · exact RaisedBy.setupP _ h
  rcases bindE_error _ _ _ h with h | ⟨_, _, h⟩
  · exact RaisedBy.setupP _ h
  rcases bindE_error _ _ _ h with h | ⟨_, _, h⟩
  · exact RaisedBy.setupP _ h
  rcases bindE_error _ _ _ h with h | ⟨_, _, h⟩
  · exact RaisedBy.setupP _ h
  rcases bindE_error _ _ _ h with h | ⟨_, _, h⟩
  · exact RaisedBy.setupP _ h
  rcases bindE_error _ _ _ h with h | ⟨_, _, h⟩
  · exact RaisedBy.setupP _ h
  rcases bindE_error _ _ _ h with h | ⟨_, _, h⟩
  · exact RaisedBy.setupP _ h
  rcases bindE_error _ _ _ h with h | ⟨_, _, h⟩
  · exact RaisedBy.setupP _ h
  rcases bindE_error _ _ _ h with h | ⟨_, _, h⟩
  · exact trainLoopE_error cfg env a.models_path a.log_path cfg.max_iter 0
      initState e h
  rcases bindE_error _ _ _ h with h | ⟨_, _, h⟩
  · exact RaisedBy.writerP _ h
  rcases bindE_error _ _ _ h with h | ⟨_, _, h⟩
  · exact RaisedBy.writerP _ h
  · simp at h

/-- A failed `main_blockE` traces back to a framework primitive. -/
theorem main_blockE_error (env : EnvE) (a : Args) (cfg : Cfg) (e : String)
    (h : main_blockE env a cfg = .error e) : RaisedBy env e := by
  simp only [main_blockE] at h
  rcases bindE_error _ _ _ h with h | ⟨_, _, h⟩
  · exact RaisedBy.setupP _ h
  rcases bindE_error _ _ _ h with h | ⟨_, _, h⟩
  · exact RaisedBy.cudaP _ _ h
  rcases bindE_error _ _ _ h with h | ⟨_, _, h⟩
  · exact RaisedBy.cudaP _ _ h
  rcases bindE_error _ _ _ h with h | ⟨_, _, h⟩
  · exact RaisedBy.setupP _ h
  rcases bindE_error _ _ _ h with h | ⟨_, _, h⟩
  · exact RaisedBy.setupP _ h
  exact trainE_error cfg env a e h

/-- C3: the script catches no exceptions: every run either succeeds, or
returns exactly an error raised by a framework primitive (no conversion),
and an error in the very first framework call aborts the whole run with
that error (no recovery or retry path). -/
theorem exceptions_propagate (env : EnvE) (a : Args) (cfg : Cfg) :
    ((∃ st, main_blockE env a cfg = .ok st) ∨
      (∃ e, main_blockE env a cfg = .error e ∧ RaisedBy env e)) ∧
    (∀ e, env.setupP "yaml.load" = .error e →
      main_blockE env a cfg = .error e) := by
  constructor
  · cases h : main_blockE env a cfg with
    | ok st => exact Or.inl ⟨st, rfl⟩
    | error e => exact Or.inr ⟨e, rfl, main_blockE_error env a cfg e h⟩
  · intro e he
    simp only [main_blockE, he, Except.bind]

/-- A concrete fallible oracle whose setup calls raise. -/
def envEW : EnvE :=
  { rankP := .ok 0
    stateDictP := fun _ => .ok 0
    cudaP := fun _ _ => .ok ()
    writerP := fun _ => .ok ()
    loaderP := fun _ => .ok ()
    squeezeP := fun _ => .ok ()
    zeroGradP := fun _ => .ok ()
    forwardP := fun _ => .ok 2
    lossPreP := fun _ => .ok 1
    lossAuxP := fun _ _ => .ok 1
    backwardP := fun _ => .ok ()
    scalerStepP := fun _ => .ok ()
    scalerUpdateP := fun _ => .ok ()
    meterP := fun _ => .ok ()
    getLrP := fun _ => .ok [1, 1]
    printLogP := fun _ => .ok ()
    schedStepP := fun _ => .ok ()
    logInfoP := fun _ => .ok ()
    evalModelP := fun _ => .ok (["a"], [1])
    torchSaveP := fun _ => .ok ()
    setupP := fun _ => .error "boom" }

/-- Witness for C3 at a concrete input: a failing first framework call
aborts the run with the same error. -/
theorem exceptions_propagate_witness :
    main_blockE envEW parse_args cfgW = .error "boom" :=
  (exceptions_propagate envEW parse_args cfgW).2 "boom" rfl
